import Mathlib

/-
Verification of Warren's agent lifecycle layer: the on-demand controller
state machine, the always-on policy, configuration validation, the webhook
alerter's bounded job queue, and the security URL validators.

Times and durations are modelled as natural numbers (an instant on a
monotone clock); machine strings are Lean `String`s over their character
lists.
-/

set_option autoImplicit false

namespace Warren

/-- Controller state of an agent (spec §3): one of
`unknown, starting, ready, sleeping, waking, stopping, degraded`. -/
inductive AgentState where
  | unknown
  | starting
  | ready
  | sleeping
  | waking
  | stopping
  | degraded
deriving DecidableEq, Repr

/-- Modelled from the spec: the immutable configuration of the on-demand
controller (§4.5.1). The on-demand controller implementation file is not
under src/ (only its tests, in `policy`, are), so the controller is
modelled from spec §4.5. All durations are naturals on one clock. -/
structure OnDemandConfig where
  checkInterval : Nat
  startupTimeout : Nat
  idleTimeout : Nat
  wakeCooldown : Nat
  maxFailures : Nat
  maxRestartAttempts : Nat
deriving DecidableEq, Repr

/-- Modelled from the spec: the state owned by one on-demand controller
(§3 data model), plus instrumentation visible to the tests in
`src/unnamed/part_000`: the number of `Start` and `Stop` calls issued to
the lifecycle driver, and the list of emitted event types in order. -/
structure OnDemand where
  state : AgentState
  consecutiveFailures : Nat
  restartAttempts : Nat
  lastSleepTime : Nat
  lastReady : Nat
  lastActivity : Nat
  startDeadline : Nat
  startCalls : Nat
  stopCalls : Nat
  events : List String
deriving DecidableEq, Repr

/-- Event type emitted on entering a state (spec §4.4). -/
def eventFor : AgentState → String
  | .unknown => "agent.unknown"
  | .starting => "agent.starting"
  | .ready => "agent.ready"
  | .sleeping => "agent.sleeping"
  | .waking => "agent.waking"
  | .stopping => "agent.stopping"
  | .degraded => "agent.degraded"

/-- Modelled from the spec: the single state-transition sink (§3 invariant 1).
It updates `lastSleepTime` iff the new state is `sleeping` and emits an
event iff the state actually changed. -/
def setState (c : OnDemand) (now : Nat) (s : AgentState) : OnDemand :=
  { c with
    state := s
    lastSleepTime := if s = .sleeping then now else c.lastSleepTime
    events := if s = c.state then c.events else c.events ++ [eventFor s] }

/-- Modelled from the spec: a freshly constructed controller, before
`SetInitialState`, is in state `unknown` with zeroed counters (§3). -/
def newOnDemand : OnDemand :=
  { state := .unknown, consecutiveFailures := 0, restartAttempts := 0,
    lastSleepTime := 0, lastReady := 0, lastActivity := 0, startDeadline := 0,
    startCalls := 0, stopCalls := 0, events := [] }

/-- Modelled from the spec: one-shot initial-state declaration (§4.5.2).
`running = true` maps to `ready` (priming `lastReady`), `false` to
`sleeping` (so the wake cooldown applies from boot). -/
def SetInitialState (c : OnDemand) (now : Nat) (running : Bool) : OnDemand :=
  if running then { setState c now .ready with lastReady := now }
  else setState c now .sleeping

/-- Modelled from the spec: bookkeeping for a failed `Start` (§4.5.3 step 2
together with §3 invariant 2): increment `restartAttempts`, clamped at
`MaxRestartAttempts`; on exhaustion transition to `degraded`. -/
def failStart (cfg : OnDemandConfig) (c : OnDemand) (now : Nat) : OnDemand :=
  let ra := Nat.min (c.restartAttempts + 1) cfg.maxRestartAttempts
  let c2 := { c with restartAttempts := ra }
  if cfg.maxRestartAttempts ≤ ra then setState c2 now .degraded else c2

/-- Modelled from the spec: the wake path (§4.5.3 steps 1-2): set state
`waking`, record `startDeadline = now + StartupTimeout`, issue `Start` to
the lifecycle driver (counted), and on a start error apply `failStart`.
`startOk` is the outcome of the driver's `Start` call. -/
def doStart (cfg : OnDemandConfig) (c : OnDemand) (now : Nat) (startOk : Bool) :
    OnDemand :=
  let c2 := { setState c now .waking with
              startDeadline := now + cfg.startupTimeout,
              startCalls := c.startCalls + 1 }
  if startOk then c2 else failStart cfg c2 now

/-- Modelled from the spec: `OnRequest` (§4.5.2): update the controller's
activity stamp; if the state is `sleeping` and `now − lastSleepTime ≥
WakeCooldown`, request a wake; otherwise a no-op. A cooldown of zero
disables the gate since the inequality then always holds. -/
def OnRequest (cfg : OnDemandConfig) (c : OnDemand) (now : Nat) (startOk : Bool) :
    OnDemand :=
  let c2 := { c with lastActivity := now }
  if c2.state = .sleeping ∧ cfg.wakeCooldown ≤ now - c2.lastSleepTime then
    doStart cfg c2 now startOk
  else c2

/-- Modelled from the spec: the sleep path (§4.5.6): set `stopping`, call
`Stop` (counted); on success transition to `sleeping`, on error remain
`ready`. The sleep path never inspects `WakeCooldown`. -/
def sleepPath (c : OnDemand) (now : Nat) (stopOk : Bool) : OnDemand :=
  let c2 := { setState c now .stopping with stopCalls := c.stopCalls + 1 }
  if stopOk then setState c2 now .sleeping else setState c2 now .ready

/-- Modelled from the spec: automatic restart after `MaxFailures`
consecutive probe failures in `ready` (§4.5.5): transition
`ready → stopping → sleeping`, increment `restartAttempts`, emit
`agent.restart_attempt`, then immediately wake, bypassing the cooldown. -/
def restartSeq (cfg : OnDemandConfig) (c : OnDemand) (now : Nat)
    (startOk stopOk : Bool) : OnDemand :=
  let c2 := sleepPath c now stopOk
  if c2.state = .sleeping then
    doStart cfg
      { c2 with
        restartAttempts := Nat.min (c2.restartAttempts + 1) cfg.maxRestartAttempts,
        events := c2.events ++ ["agent.restart_attempt"] }
      now startOk
  else c2

/-- Modelled from the spec: successful probe resolution (§4.5.4): enter
`ready`, reset `consecutiveFailures` and `restartAttempts`, update
`lastReady`. -/
def becomeReady (c : OnDemand) (now : Nat) : OnDemand :=
  { setState c now .ready with
    consecutiveFailures := 0, restartAttempts := 0, lastReady := now }

/-- Modelled from the spec: expiry of `startDeadline` while `waking`
(§4.5.3 step 4): treat as a failed start and attempt stop-then-start
(restart budget already checked by the caller). -/
def deadlineRestart (cfg : OnDemandConfig) (c : OnDemand) (now : Nat)
    (startOk stopOk : Bool) : OnDemand :=
  let c3 := { c with
    restartAttempts := Nat.min (c.restartAttempts + 1) cfg.maxRestartAttempts }
  let c4 := { setState c3 now .stopping with stopCalls := c3.stopCalls + 1 }
  if stopOk then doStart cfg (setState c4 now .sleeping) now startOk
  else setState c4 now .waking

/-- Container status reported by the lifecycle driver (spec §4.1). -/
inductive ContainerStatus where
  | running
  | exited
  | missing
  | unknown
deriving DecidableEq, Repr

/-- Modelled from the spec: one control-loop tick (§4.5.4 and §4.5.5),
dispatching on the current state. The tick's inputs are the environment
readings of that tick: the clock, the probe outcome, the driver-reported
container status, the outcomes of any `Start`/`Stop` the tick issues, and
the activity tracker's connection count and last-request stamp. -/
def tick (cfg : OnDemandConfig) (c : OnDemand) (now : Nat) (probeOk : Bool)
    (status : ContainerStatus) (startOk stopOk : Bool)
    (activeConns lastRequest : Nat) : OnDemand :=
  match c.state with
  | .ready =>
      if probeOk then
        let c2 := { c with consecutiveFailures := 0 }
        if activeConns = 0 ∧ cfg.idleTimeout ≤ now - Nat.max lastRequest c2.lastReady then
          sleepPath c2 now stopOk
        else c2
      else
        let c2 := { c with consecutiveFailures := c.consecutiveFailures + 1 }
        if cfg.maxFailures ≤ c2.consecutiveFailures then
          if c2.restartAttempts < cfg.maxRestartAttempts then
            restartSeq cfg c2 now startOk stopOk
          else setState c2 now .degraded
        else c2
  | .waking | .starting =>
      if probeOk then becomeReady c now
      else
        let c2 := { c with consecutiveFailures := c.consecutiveFailures + 1 }
        if c2.startDeadline ≤ now then
          if c2.restartAttempts < cfg.maxRestartAttempts then
            deadlineRestart cfg c2 now startOk stopOk
          else setState c2 now .degraded
        else c2
  | .sleeping =>
      if status = .running then
        { setState c now .stopping with stopCalls := c.stopCalls + 1 }
      else c
  | .stopping =>
      if status = .exited ∨ status = .missing then setState c now .sleeping
      else c
  | .degraded =>
      if probeOk then becomeReady c now
      else { c with consecutiveFailures := c.consecutiveFailures + 1 }
  | .unknown =>
      if status = .running then
        (if probeOk then becomeReady c now else setState c now .waking)
      else if status = .exited ∨ status = .missing then setState c now .sleeping
      else c

/-- Modelled from the spec: admin-initiated wake (§4.5.2): bypasses the
cooldown but only acts from `sleeping`. -/
def RequestWake (cfg : OnDemandConfig) (c : OnDemand) (now : Nat)
    (startOk : Bool) : OnDemand :=
  if c.state = .sleeping then doStart cfg c now startOk else c

/-- Modelled from the spec: admin-initiated sleep (§4.5.2): only acts from
`ready`. -/
def RequestSleep (c : OnDemand) (now : Nat) (stopOk : Bool) : OnDemand :=
  if c.state = .ready then sleepPath c now stopOk else c

/-- One externally triggered operation on a controller, with the
environment readings it consumes. -/
inductive Op where
  | req (now : Nat) (startOk : Bool)
  | tk (now : Nat) (probeOk : Bool) (status : ContainerStatus)
      (startOk stopOk : Bool) (activeConns lastRequest : Nat)
  | adminWake (now : Nat) (startOk : Bool)
  | adminSleep (now : Nat) (stopOk : Bool)
deriving DecidableEq, Repr

/-- Apply one operation to a controller. -/
def applyOp (cfg : OnDemandConfig) (c : OnDemand) : Op → OnDemand
  | .req now startOk => OnRequest cfg c now startOk
  | .tk now probeOk status startOk stopOk ac lr =>
      tick cfg c now probeOk status startOk stopOk ac lr
  | .adminWake now startOk => RequestWake cfg c now startOk
  | .adminSleep now stopOk => RequestSleep c now stopOk

/-- The operation is a control-loop tick whose health probe succeeded. -/
def Op.isProbeSuccess : Op → Prop
  | .tk _ probeOk _ _ _ _ _ => probeOk = true
  | _ => False

/-- Controller states reachable from construction: the fresh controller,
optionally initialised once via `SetInitialState`, then any sequence of
requests, ticks and admin operations. -/
inductive Reachable (cfg : OnDemandConfig) : OnDemand → Prop where
  | boot : Reachable cfg newOnDemand
  | bootInit (now : Nat) (running : Bool) :
      Reachable cfg (SetInitialState newOnDemand now running)
  | step (c : OnDemand) (op : Op) :
      Reachable cfg c → Reachable cfg (applyOp cfg c op)

/-- C1: an `OnRequest` received while `sleeping`, strictly within
`WakeCooldown` (positive) of the last entry into `sleeping`, issues no
`Start` call and leaves the state `sleeping`; moreover no `OnRequest`
ever moves `lastSleepTime`, so the cooldown is always measured from the
last transition into `sleeping` (which is the only writer of
`lastSleepTime`, see `c5_set_state_sink`), never from the last wake. -/
theorem c1_cooldown_gate :
    (∀ (cfg : OnDemandConfig) (c : OnDemand) (now : Nat) (startOk : Bool),
        c.state = .sleeping → 0 < cfg.wakeCooldown →
        now - c.lastSleepTime < cfg.wakeCooldown →
        (OnRequest cfg c now startOk).startCalls = c.startCalls ∧
        (OnRequest cfg c now startOk).state = .sleeping)
  ∧ (∀ (cfg : OnDemandConfig) (c : OnDemand) (now : Nat) (startOk : Bool),
        (OnRequest cfg c now startOk).lastSleepTime = c.lastSleepTime) := by
  constructor
  · intro cfg c now startOk hs _hpos hlt
    have hgate : ¬ (c.state = AgentState.sleeping ∧
        cfg.wakeCooldown ≤ now - c.lastSleepTime) := by
      rintro ⟨-, hle⟩; omega
    simp only [OnRequest]
    rw [if_neg (by simpa using hgate)]
    exact ⟨rfl, hs⟩
  · intro cfg c now startOk
    simp only [OnRequest, doStart, failStart, setState]
    split
    · split
      · simp
      · split <;> simp
    · rfl

/-- Concrete witness for `c1_cooldown_gate`: a controller that entered
`sleeping` at time 0, polled at time 100 under a 1000-tick cooldown. -/
def cfg0 : OnDemandConfig :=
  { checkInterval := 50, startupTimeout := 5000, idleTimeout := 150,
    wakeCooldown := 1000, maxFailures := 3, maxRestartAttempts := 2 }

def cSleep : OnDemand := { newOnDemand with state := .sleeping }

theorem c1_cooldown_gate_witness :
    (OnRequest cfg0 cSleep 100 true).startCalls = cSleep.startCalls ∧
    (OnRequest cfg0 cSleep 100 true).state = .sleeping :=
  c1_cooldown_gate.1 cfg0 cSleep 100 true rfl (by decide) (by decide)

/-- C2: with `WakeCooldown = 0` the gate is disabled: any `OnRequest`
received while `sleeping` — at any instant, including immediately after
entering `sleeping` — issues a `Start` call to the lifecycle driver, and
when the start is accepted the state becomes `waking`. -/
theorem c2_zero_cooldown :
    ∀ (cfg : OnDemandConfig) (c : OnDemand) (now : Nat) (startOk : Bool),
      cfg.wakeCooldown = 0 → c.state = .sleeping →
      (OnRequest cfg c now startOk).startCalls = c.startCalls + 1 ∧
      (startOk = true → (OnRequest cfg c now startOk).state = .waking) := by
  intro cfg c now startOk hz hs
  have hgate : c.state = AgentState.sleeping ∧
      cfg.wakeCooldown ≤ now - c.lastSleepTime := ⟨hs, by omega⟩
  simp only [OnRequest]
  rw [if_pos (by simpa using hgate)]
  constructor
  · simp only [doStart, failStart, setState]
    split
    · rfl
    · split <;> rfl
  · intro hok
    simp [doStart, hok, setState]

/-- Concrete witness for `c2_zero_cooldown`: zero cooldown, a request at
the very instant `sleeping` was entered. -/
def cfgZero : OnDemandConfig := { cfg0 with wakeCooldown := 0 }

theorem c2_zero_cooldown_witness :
    (OnRequest cfgZero cSleep 0 true).startCalls = cSleep.startCalls + 1 ∧
    (OnRequest cfgZero cSleep 0 true).state = .waking := by
  have h := c2_zero_cooldown cfgZero cSleep 0 true rfl rfl
  exact ⟨h.1, h.2 rfl⟩

/-- C5: the `setState` sink (through which every transition of the model
goes — all transitions above are defined via `setState`) sets the new
state, updates `lastSleepTime` if and only if the new state is `sleeping`,
and emits an event if and only if the state actually changed; in
particular the initial `SetInitialState(false)` transition records
`lastSleepTime = now`. -/
theorem c5_set_state_sink :
    ∀ (c : OnDemand) (now : Nat) (s : AgentState),
      (setState c now s).state = s
    ∧ (setState c now s).lastSleepTime
        = (if s = .sleeping then now else c.lastSleepTime)
    ∧ (setState c now s).events
        = (if s = c.state then c.events else c.events ++ [eventFor s])
    ∧ ∀ n : Nat, (SetInitialState newOnDemand n false).lastSleepTime = n := by
  intro c now s
  refine ⟨rfl, rfl, rfl, fun n => ?_⟩
  simp [SetInitialState, setState]

/-- Characterisation of a healthy-probe tick in state `ready` (§4.5.4). -/
theorem tick_ready (cfg : OnDemandConfig)
    (cf ra ls lrd la sd sc stc : Nat) (ev : List String) (now : Nat)
    (status : ContainerStatus) (startOk stopOk : Bool) (ac lr : Nat) :
    tick cfg ⟨.ready, cf, ra, ls, lrd, la, sd, sc, stc, ev⟩ now true status
        startOk stopOk ac lr
      = (if ac = 0 ∧ cfg.idleTimeout ≤ now - Nat.max lr lrd then
          sleepPath ⟨.ready, 0, ra, ls, lrd, la, sd, sc, stc, ev⟩ now stopOk
        else ⟨.ready, 0, ra, ls, lrd, la, sd, sc, stc, ev⟩) := rfl

/-- C6: on a tick in state `ready` with a healthy probe and a successful
stop, the transition to `sleeping` fires if and only if there are no
active connections and at least `IdleTimeout` has elapsed since
`max(lastRequest, lastReady)`; with any active connection the state stays
`ready` regardless of elapsed idle time. -/
theorem c6_idle_gate :
    ∀ (cfg : OnDemandConfig) (c : OnDemand) (now : Nat)
      (status : ContainerStatus) (startOk : Bool) (ac lr : Nat),
      c.state = .ready →
      ((tick cfg c now true status startOk true ac lr).state = .sleeping ↔
        ac = 0 ∧ cfg.idleTimeout ≤ now - Nat.max lr c.lastReady)
    ∧ (0 < ac → (tick cfg c now true status startOk true ac lr).state = .ready) := by
  intro cfg c now status startOk ac lr hr
  obtain ⟨st, cf, ra, ls, lrd, la, sd, sc, stc, ev⟩ := c
  replace hr : st = AgentState.ready := hr
  subst hr
  rw [tick_ready]
  constructor
  · split
    · rename_i hc
      exact iff_of_true rfl hc
    · rename_i hc
      exact iff_of_false (by simp) hc
  · intro hac
    rw [if_neg (by rintro ⟨h0, -⟩; omega)]

/-- Concrete witness for `c6_idle_gate`: a ready controller, idle since
time 0, one active connection held at time 10000. -/
def cReady : OnDemand := { newOnDemand with state := .ready }

theorem c6_idle_gate_witness :
    (tick cfg0 cReady 10000 true .running true true 1 0).state = .ready :=
  (c6_idle_gate cfg0 cReady 10000 .running true 1 0 rfl).2 (by decide)

/-- Characterisation of a failed-probe tick in state `ready` (§4.5.5). -/
theorem tick_ready_fail (cfg : OnDemandConfig)
    (cf ra ls lrd la sd sc stc : Nat) (ev : List String) (now : Nat)
    (status : ContainerStatus) (startOk stopOk : Bool) (ac lr : Nat) :
    tick cfg ⟨.ready, cf, ra, ls, lrd, la, sd, sc, stc, ev⟩ now false status
        startOk stopOk ac lr
      = (if cfg.maxFailures ≤ cf + 1 then
          (if ra < cfg.maxRestartAttempts then
            restartSeq cfg ⟨.ready, cf + 1, ra, ls, lrd, la, sd, sc, stc, ev⟩
              now startOk stopOk
          else
            setState ⟨.ready, cf + 1, ra, ls, lrd, la, sd, sc, stc, ev⟩
              now .degraded)
        else ⟨.ready, cf + 1, ra, ls, lrd, la, sd, sc, stc, ev⟩) := rfl

/-- C4: probe outcomes while readiness is expected. A success resets
`consecutiveFailures` to 0 and moves `waking` to `ready`; a failure
increments `consecutiveFailures`; and when the failures reach
`MaxFailures` in state `ready` with restart budget left (and the stop and
start succeed), the controller runs `ready → stopping → sleeping`
followed by an immediate wake in the same tick — no `WakeCooldown`
condition appears, so the recovery bypasses the cooldown — incrementing
`restartAttempts`, issuing a `Start`, and emitting
`agent.restart_attempt`. -/
theorem c4_probe_outcomes :
    ∀ (cfg : OnDemandConfig) (c : OnDemand) (now : Nat)
      (status : ContainerStatus) (startOk stopOk : Bool) (ac lr : Nat),
      (c.state = .waking →
        (tick cfg c now true status startOk stopOk ac lr).state = .ready ∧
        (tick cfg c now true status startOk stopOk ac lr).consecutiveFailures = 0)
    ∧ (c.state = .ready →
        (tick cfg c now true status startOk stopOk ac lr).consecutiveFailures = 0)
    ∧ (c.state = .waking →
        (tick cfg c now false status startOk stopOk ac lr).consecutiveFailures
          = c.consecutiveFailures + 1)
    ∧ (c.state = .ready →
        (tick cfg c now false status startOk stopOk ac lr).consecutiveFailures
          = c.consecutiveFailures + 1)
    ∧ (c.state = .ready → cfg.maxFailures ≤ c.consecutiveFailures + 1 →
        c.restartAttempts < cfg.maxRestartAttempts →
        (tick cfg c now false status true true ac lr).state = .waking
        ∧ (tick cfg c now false status true true ac lr).restartAttempts
            = c.restartAttempts + 1
        ∧ (tick cfg c now false status true true ac lr).startCalls
            = c.startCalls + 1
        ∧ (tick cfg c now false status true true ac lr).lastSleepTime = now
        ∧ (tick cfg c now false status true true ac lr).events
            = c.events ++ ["agent.stopping", "agent.sleeping",
                "agent.restart_attempt", "agent.waking"]) := by
  intro cfg c now status startOk stopOk ac lr
  obtain ⟨st, cf, ra, ls, lrd, la, sd, sc, stc, ev⟩ := c
  refine ⟨?_, ?_, ?_, ?_, ?_⟩
  · intro h
    replace h : st = AgentState.waking := h
    subst h
    exact ⟨rfl, rfl⟩
  · intro h
    replace h : st = AgentState.ready := h
    subst h
    rw [tick_ready]
    split
    · simp only [sleepPath, setState]
      split_ifs <;> rfl
    · rfl
  · intro h
    replace h : st = AgentState.waking := h
    subst h
    have hu : tick cfg ⟨.waking, cf, ra, ls, lrd, la, sd, sc, stc, ev⟩ now false
        status startOk stopOk ac lr
      = (if sd ≤ now then
          (if ra < cfg.maxRestartAttempts then
            deadlineRestart cfg ⟨.waking, cf + 1, ra, ls, lrd, la, sd, sc, stc, ev⟩
              now startOk stopOk
          else
            setState ⟨.waking, cf + 1, ra, ls, lrd, la, sd, sc, stc, ev⟩
              now .degraded)
        else ⟨.waking, cf + 1, ra, ls, lrd, la, sd, sc, stc, ev⟩) := rfl
    rw [hu]
    split_ifs
    · simp only [deadlineRestart, setState, doStart, failStart]
      split_ifs <;> rfl
    · rfl
    · rfl
  · intro h
    replace h : st = AgentState.ready := h
    subst h
    rw [tick_ready_fail]
    split_ifs
    · simp only [restartSeq, sleepPath, doStart, failStart, setState]
      split_ifs <;> rfl
    · rfl
    · rfl
  · intro h hm hra
    replace h : st = AgentState.ready := h
    subst h
    replace hm : cfg.maxFailures ≤ cf + 1 := hm
    replace hra : ra < cfg.maxRestartAttempts := hra
    rw [tick_ready_fail, if_pos hm, if_pos hra]
    refine ⟨rfl, ?_, rfl, rfl, ?_⟩
    · show Nat.min (ra + 1) cfg.maxRestartAttempts = ra + 1
      exact Nat.min_eq_left (by omega)
    · simp [restartSeq, sleepPath, doStart, setState, eventFor]

/-- Concrete witness for `c4_probe_outcomes`: a ready controller with two
failures under `MaxFailures = 3` and restart budget left fails a third
probe at time 500 and is rewoken in the same tick. -/
def cReadyFailing : OnDemand :=
  { newOnDemand with state := .ready, consecutiveFailures := 2 }

theorem c4_probe_outcomes_witness :
    (tick cfg0 cReadyFailing 500 false .running true true 0 0).state = .waking ∧
    (tick cfg0 cReadyFailing 500 false .running true true 0 0).restartAttempts
      = cReadyFailing.restartAttempts + 1 ∧
    (tick cfg0 cReadyFailing 500 false .running true true 0 0).startCalls
      = cReadyFailing.startCalls + 1 := by
  have h := (c4_probe_outcomes cfg0 cReadyFailing 500 .running true true 0 0).2.2.2.2
    rfl (by decide) (by decide)
  exact ⟨h.1, h.2.1, h.2.2.1⟩

theorem sleepPath_ra (c : OnDemand) (now : Nat) (b : Bool) :
    (sleepPath c now b).restartAttempts = c.restartAttempts := by
  simp only [sleepPath, setState]
  split_ifs <;> rfl

theorem failStart_ra_le (cfg : OnDemandConfig) (c : OnDemand) (now : Nat) :
    (failStart cfg c now).restartAttempts ≤ cfg.maxRestartAttempts := by
  simp only [failStart, setState]
  split_ifs <;> exact Nat.min_le_right _ _

theorem doStart_ra_le (cfg : OnDemandConfig) (c : OnDemand) (now : Nat)
    (ok : Bool) (h : c.restartAttempts ≤ cfg.maxRestartAttempts) :
    (doStart cfg c now ok).restartAttempts ≤ cfg.maxRestartAttempts := by
  simp only [doStart, setState]
  split_ifs <;>
    first
      | exact h
      | exact failStart_ra_le cfg _ now

theorem restartSeq_ra_le (cfg : OnDemandConfig) (c : OnDemand) (now : Nat)
    (so ko : Bool) (h : c.restartAttempts ≤ cfg.maxRestartAttempts) :
    (restartSeq cfg c now so ko).restartAttempts ≤ cfg.maxRestartAttempts := by
  simp only [restartSeq]
  split_ifs
  · exact doStart_ra_le cfg _ now so (Nat.min_le_right _ _)
  · rw [sleepPath_ra]
    exact h

theorem deadlineRestart_ra_le (cfg : OnDemandConfig) (c : OnDemand) (now : Nat)
    (so ko : Bool) :
    (deadlineRestart cfg c now so ko).restartAttempts ≤ cfg.maxRestartAttempts := by
  simp only [deadlineRestart, setState]
  split_ifs <;>
    first
      | exact doStart_ra_le cfg _ now so (Nat.min_le_right _ _)
      | exact Nat.min_le_right _ _

theorem tick_ra_le (cfg : OnDemandConfig) (c : OnDemand) (now : Nat)
    (probeOk : Bool) (status : ContainerStatus) (startOk stopOk : Bool)
    (ac lr : Nat) (h : c.restartAttempts ≤ cfg.maxRestartAttempts) :
    (tick cfg c now probeOk status startOk stopOk ac lr).restartAttempts
      ≤ cfg.maxRestartAttempts := by
  obtain ⟨st, cf, ra, ls, lrd, la, sd, sc, stc, ev⟩ := c
  replace h : ra ≤ cfg.maxRestartAttempts := h
  cases st <;> simp only [tick] <;> split_ifs <;>
    first
      | exact h
      | exact Nat.zero_le _
      | (rw [sleepPath_ra]; exact h)
      | exact restartSeq_ra_le cfg _ now _ _ h
      | exact deadlineRestart_ra_le cfg _ now _ _

theorem applyOp_ra_le (cfg : OnDemandConfig) (c : OnDemand) (op : Op)
    (h : c.restartAttempts ≤ cfg.maxRestartAttempts) :
    (applyOp cfg c op).restartAttempts ≤ cfg.maxRestartAttempts := by
  cases op with
  | req now startOk =>
      simp only [applyOp, OnRequest]
      split_ifs
      · exact doStart_ra_le cfg _ now _ h
      · exact h
  | tk now probeOk status startOk stopOk ac lr =>
      exact tick_ra_le cfg c now probeOk status startOk stopOk ac lr h
  | adminWake now startOk =>
      simp only [applyOp, RequestWake]
      split_ifs
      · exact doStart_ra_le cfg _ now _ h
      · exact h
  | adminSleep now stopOk =>
      simp only [applyOp, RequestSleep]
      split_ifs
      · rw [sleepPath_ra]; exact h
      · exact h

/-- C3: the restart budget is an invariant of every reachable controller
state: `restartAttempts ≤ MaxRestartAttempts` always holds; when the
budget is crossed by a failed start the sink transitions to `degraded`;
and from `degraded` no operation issues a further `Start` call — the
state stays `degraded` until (exactly) a tick whose probe succeeds, which
is the only exit and goes to `ready`. -/
theorem c3_restart_budget (cfg : OnDemandConfig) :
    (∀ c, Reachable cfg c → c.restartAttempts ≤ cfg.maxRestartAttempts)
  ∧ (∀ (c : OnDemand) (now : Nat),
      cfg.maxRestartAttempts ≤ c.restartAttempts + 1 →
      (failStart cfg c now).state = .degraded)
  ∧ (∀ (c : OnDemand) (op : Op), c.state = .degraded →
      (applyOp cfg c op).startCalls = c.startCalls
      ∧ ((applyOp cfg c op).state = .degraded ∨
          ((applyOp cfg c op).state = .ready ∧ op.isProbeSuccess))) := by
  refine ⟨?_, ?_, ?_⟩
  · intro c hr
    induction hr with
    | boot => exact Nat.zero_le _
    | bootInit now running => cases running <;> exact Nat.zero_le _
    | step c op _ ih => exact applyOp_ra_le cfg c op ih
  · intro c now h
    have h2 : cfg.maxRestartAttempts
        ≤ Nat.min (c.restartAttempts + 1) cfg.maxRestartAttempts :=
      Nat.le_min.mpr ⟨h, Nat.le_refl _⟩
    simp only [failStart, setState]
    rw [if_pos h2]
  · intro c op h
    obtain ⟨st, cf, ra, ls, lrd, la, sd, sc, stc, ev⟩ := c
    replace h : st = AgentState.degraded := h
    subst h
    cases op with
    | req now startOk =>
        simp only [applyOp, OnRequest]
        rw [if_neg (by rintro ⟨h', -⟩; exact absurd h' (by decide))]
        exact ⟨rfl, Or.inl rfl⟩
    | tk now probeOk status startOk stopOk ac lr =>
        cases probeOk
        · exact ⟨rfl, Or.inl rfl⟩
        · exact ⟨rfl, Or.inr ⟨rfl, rfl⟩⟩
    | adminWake now startOk =>
        simp only [applyOp, RequestWake]
        rw [if_neg (by intro h'; exact absurd h' (by decide))]
        exact ⟨rfl, Or.inl rfl⟩
    | adminSleep now stopOk =>
        simp only [applyOp, RequestSleep]
        rw [if_neg (by intro h'; exact absurd h' (by decide))]
        exact ⟨rfl, Or.inl rfl⟩

/-- Concrete witness for `c3_restart_budget`: the freshly booted
controller and a degraded controller polled by a request. -/
def cDegraded : OnDemand := { newOnDemand with state := .degraded }

theorem c3_restart_budget_witness :
    newOnDemand.restartAttempts ≤ cfg0.maxRestartAttempts ∧
    (applyOp cfg0 cDegraded (.req 7 true)).startCalls = cDegraded.startCalls :=
  ⟨(c3_restart_budget cfg0).1 newOnDemand Reachable.boot,
   ((c3_restart_budget cfg0).2.2 cDegraded (.req 7 true) rfl).1⟩

/-!
The always-on policy, embedded from `src/unnamed/part_001`
(`internal/policy`, type `AlwaysOn`). Only the fields the health
transitions touch are modelled; `state` is the Go string state.
-/

/-- Mutable state of the always-on policy (part_001 lines 12-24): the
current state string and the consecutive-failure counter. -/
structure AlwaysOn where
  state : String
  failures : Nat
deriving DecidableEq, Repr

/-- A freshly constructed always-on policy (part_001 `NewAlwaysOn`):
state `"starting"`, zero failures. -/
def NewAlwaysOn : AlwaysOn := { state := "starting", failures := 0 }

/-- Successful health check (part_001 `onHealthy`, lines 75-85): state
becomes `"ready"` and the failure counter resets to zero. -/
def onHealthy (a : AlwaysOn) : AlwaysOn :=
  { a with state := "ready", failures := 0 }

/-- Failed health check (part_001 `onUnhealthy`, lines 87-103): the
counter increments; once it reaches `maxFailures` the state becomes
`"degraded"`. -/
def onUnhealthy (maxFailures : Nat) (a : AlwaysOn) : AlwaysOn :=
  let f := a.failures + 1
  { a with failures := f, state := if maxFailures ≤ f then "degraded" else a.state }

/-- C9: for the always-on policy every failed health check increments the
consecutive-failure counter and, once the counter reaches `MaxFailures`,
the state becomes `degraded`; every successful health check sets the
state to `ready` (from any state, so one success recovers a degraded
agent) and resets the counter to zero. -/
theorem c9_always_on :
    ∀ (maxF : Nat) (a : AlwaysOn),
      (onHealthy a).state = "ready"
    ∧ (onHealthy a).failures = 0
    ∧ (onUnhealthy maxF a).failures = a.failures + 1
    ∧ (maxF ≤ a.failures + 1 → (onUnhealthy maxF a).state = "degraded")
    ∧ (a.failures + 1 < maxF → (onUnhealthy maxF a).state = a.state) := by
  intro maxF a
  refine ⟨rfl, rfl, rfl, ?_, ?_⟩
  · intro h
    simp only [onUnhealthy]
    rw [if_pos h]
  · intro h
    simp only [onUnhealthy]
    rw [if_neg (by omega)]

/-- Concrete witness for `c9_always_on`: a degraded agent with five
failures recovers on one success; a ready agent with two prior failures
degrades on its third under `MaxFailures = 3`. -/
theorem c9_always_on_witness :
    (onHealthy ⟨"degraded", 5⟩).state = "ready" ∧
    (onUnhealthy 3 ⟨"ready", 2⟩).state = "degraded" :=
  ⟨(c9_always_on 3 ⟨"degraded", 5⟩).1,
   (c9_always_on 3 ⟨"ready", 2⟩).2.2.2.1 (by decide)⟩

/-!
The webhook alerter, embedded from `src/unnamed/part_002` (bounded
worker-pool variant, lines 97-152, the one exercised by
`internal/alerts/webhook_pool_test.go`). The job channel of capacity 100
is modelled as a list holding at most 100 jobs; `select`'s `default`
branch (drop when full) is the `else` of `enqueueJob`.
-/

/-- A webhook destination (config.WebhookConfig): target URL and event
filter; an empty filter matches all events. Headers are not modelled —
no modelled operation reads them. -/
structure WebhookConfig where
  url : String
  events : List String
deriving DecidableEq, Repr

/-- An emitted event record (events.Event, restricted to the fields the
alerter reads). -/
structure Event where
  type : String
  agent : String
deriving DecidableEq, Repr

/-- A queued delivery job (part_002 `webhookJob`). -/
structure webhookJob where
  cfg : WebhookConfig
  ev : Event
deriving DecidableEq, Repr

/-- Event filter (part_002 `matches`): an empty filter matches every
event, otherwise the event type must be listed. -/
def matchesType (cfg : WebhookConfig) (eventType : String) : Bool :=
  cfg.events.isEmpty || cfg.events.contains eventType

/-- Capacity of the webhook job channel (part_002 line 118:
`make(chan webhookJob, 100)`). -/
def webhookQueueCap : Nat := 100

/-- Non-blocking enqueue (part_002 lines 144-148): append when the queue
has room, drop (and log) when it is full. -/
def enqueueJob (jobs : List webhookJob) (j : webhookJob) : List webhookJob :=
  if jobs.length < webhookQueueCap then jobs ++ [j] else jobs

/-- The registered event handler (part_002 `RegisterEventHandler`, lines
140-152): for each configured webhook whose filter matches the event,
attempt a non-blocking enqueue into the job queue. -/
def deliver (ev : Event) (jobs : List webhookJob) :
    List WebhookConfig → List webhookJob
  | [] => jobs
  | cfg :: rest =>
      deliver ev
        (if matchesType cfg ev.type then enqueueJob jobs ⟨cfg, ev⟩ else jobs)
        rest

theorem enqueueJob_length_le (jobs : List webhookJob) (j : webhookJob)
    (h : jobs.length ≤ webhookQueueCap) :
    (enqueueJob jobs j).length ≤ webhookQueueCap := by
  simp only [enqueueJob]
  split_ifs with hlt
  · simp only [List.length_append, List.length_cons, List.length_nil]
    omega
  · exact h

theorem mem_enqueueJob (jobs : List webhookJob) (j x : webhookJob)
    (h : x ∈ jobs) : x ∈ enqueueJob jobs j := by
  simp only [enqueueJob]
  split_ifs
  · exact List.mem_append_left _ h
  · exact h

theorem deliver_length_le (configs : List WebhookConfig)
    (jobs : List webhookJob) (ev : Event) (h : jobs.length ≤ webhookQueueCap) :
    (deliver ev jobs configs).length ≤ webhookQueueCap := by
  induction configs generalizing jobs with
  | nil => exact h
  | cons cfg rest ih =>
      simp only [deliver]
      split_ifs
      · exact ih _ (enqueueJob_length_le jobs _ h)
      · exact ih _ h

theorem deliver_full (configs : List WebhookConfig) (jobs : List webhookJob)
    (ev : Event) (h : jobs.length = webhookQueueCap) :
    deliver ev jobs configs = jobs := by
  induction configs with
  | nil => rfl
  | cons cfg rest ih =>
      simp only [deliver]
      have he : enqueueJob jobs ⟨cfg, ev⟩ = jobs := by
        simp only [enqueueJob]
        rw [if_neg (by omega)]
      split_ifs
      · rw [he]
        exact ih
      · exact ih

theorem deliver_mem_mono (configs : List WebhookConfig)
    (jobs : List webhookJob) (ev : Event) (x : webhookJob) (h : x ∈ jobs) :
    x ∈ deliver ev jobs configs := by
  induction configs generalizing jobs with
  | nil => exact h
  | cons cfg rest ih =>
      simp only [deliver]
      split_ifs
      · exact ih _ (mem_enqueueJob jobs _ x h)
      · exact ih _ h

/-- C8: the webhook event handler is non-blocking with a bounded queue:
starting from any queue within the capacity of 100, handling an event
(a) keeps the queue within capacity, (b) is a pure drop when the queue is
already full, and (c) enqueues the delivery job of every matching webhook
unless the queue has hit capacity (drop-on-full instead of blocking). -/
theorem c8_bounded_queue :
    (∀ (configs : List WebhookConfig) (jobs : List webhookJob) (ev : Event),
      jobs.length ≤ webhookQueueCap →
      (deliver ev jobs configs).length ≤ webhookQueueCap)
  ∧ (∀ (configs : List WebhookConfig) (jobs : List webhookJob) (ev : Event),
      jobs.length = webhookQueueCap → deliver ev jobs configs = jobs)
  ∧ (∀ (configs : List WebhookConfig) (jobs : List webhookJob) (ev : Event)
      (cfg : WebhookConfig),
      jobs.length ≤ webhookQueueCap → cfg ∈ configs →
      matchesType cfg ev.type = true →
      (⟨cfg, ev⟩ : webhookJob) ∈ deliver ev jobs configs ∨
        (deliver ev jobs configs).length = webhookQueueCap) := by
  refine ⟨deliver_length_le, deliver_full, ?_⟩
  intro configs jobs ev cfg hlen hmem hmatch
  induction configs generalizing jobs with
  | nil => cases hmem
  | cons c0 rest ih =>
      rcases List.mem_cons.mp hmem with heq | htail
      · subst heq
        simp only [deliver, hmatch, if_true]
        by_cases hfull : jobs.length < webhookQueueCap
        · left
          refine deliver_mem_mono rest _ ev _ ?_
          simp only [enqueueJob]
          rw [if_pos hfull]
          exact List.mem_append_right _ (List.mem_singleton.mpr rfl)
        · right
          have hfe : jobs.length = webhookQueueCap := by omega
          have he : enqueueJob jobs ⟨cfg, ev⟩ = jobs := by
            simp only [enqueueJob]
            rw [if_neg hfull]
          rw [he, deliver_full rest jobs ev hfe, hfe]
      · simp only [deliver]
        split_ifs
        · exact ih _ (enqueueJob_length_le jobs _ hlen) htail
        · exact ih _ hlen htail

/-- Concrete witness for `c8_bounded_queue`: one configured webhook with
no filter, an empty queue, one `agent.ready` event. -/
theorem c8_bounded_queue_witness :
    (deliver ⟨"agent.ready", "test"⟩ []
      [⟨"http://unreachable.invalid/hook", []⟩]).length ≤ webhookQueueCap :=
  c8_bounded_queue.1 [⟨"http://unreachable.invalid/hook", []⟩] []
    ⟨"agent.ready", "test"⟩ (by decide)

/-!
Security validators, embedded from `src/unnamed/part_004`
(`internal/security`). Strings are processed through their character
lists. Go standard-library pieces are modelled at the granularity the
validators use them: `url.Parse` as a scheme/host splitter on `://`
URLs, `net.ParseIP` as a dotted-quad IPv4 parser (plus the IPv6 loopback
literal), `net.IP`'s class predicates on those addresses, and
`net.LookupIP` as an explicit resolver argument
`String → Option (List IPAddr)` (`none` models a lookup error).
-/

/-- Split a character list on a separator character. -/
def splitOnChar (sep : Char) : List Char → List (List Char)
  | [] => [[]]
  | c :: cs =>
      match splitOnChar sep cs with
      | [] => if c = sep then [[], []] else [[c]]
      | h :: t => if c = sep then [] :: h :: t else (c :: h) :: t

/-- An ASCII letter or digit (the label regex's character class). -/
def alnum (c : Char) : Bool := c.isAlpha || c.isDigit

/-- Tail of a hostname label: interior characters may also be a hyphen,
the final character must be alphanumeric. -/
def labelTail : List Char → Bool
  | [] => true
  | [c] => alnum c
  | c :: rest => (alnum c || c = '-') && labelTail rest

/-- One hostname label matches `^[a-zA-Z0-9]([a-zA-Z0-9-]*[a-zA-Z0-9])?$`
(part_004 line 188). -/
def labelOk : List Char → Bool
  | [] => false
  | [c] => alnum c
  | c :: rest => alnum c && labelTail rest

/-- Per-label checks of `ValidateHostname` in source order (part_004
lines 190-201). -/
def checkLabels : List (List Char) → Except String Unit
  | [] => .ok ()
  | l :: ls =>
      if l.length = 0 then .error "hostname contains empty label"
      else if 63 < l.length then .error "hostname label exceeds 63 characters"
      else if !labelOk l then .error "hostname label contains invalid characters"
      else checkLabels ls

/-- RFC 1123 hostname validation (part_004 `ValidateHostname`, lines
179-203). -/
def ValidateHostname (hostname : String) : Except String Unit :=
  if hostname = "" then .error "hostname is empty"
  else if 253 < hostname.data.length then .error "hostname exceeds 253 characters"
  else checkLabels (splitOnChar '.' hostname.data)

/-- Split a raw URL at the first `://` into scheme and remainder; `none`
when no `://` occurs (such URLs fail the validators' scheme check either
way). -/
def splitScheme : List Char → Option (List Char × List Char)
  | [] => none
  | ':' :: '/' :: '/' :: rest => some ([], rest)
  | c :: rest =>
      match splitScheme rest with
      | some (s, r) => some (c :: s, r)
      | none => none

/-- Extract the host from the part after `://`, stripping an IPv6
bracket pair and cutting at the first path, port, query or fragment
delimiter — the model of `url.URL.Hostname()`. -/
def hostOf (rest : List Char) : List Char :=
  match rest with
  | '[' :: r => r.takeWhile (· ≠ ']')
  | _ => rest.takeWhile (fun c => c ≠ '/' && c ≠ ':' && c ≠ '?' && c ≠ '#')

/-- Model of `url.Parse` restricted to what the validators read: the
scheme and the hostname. -/
def parseURL (s : String) : Option (String × String) :=
  match splitScheme s.data with
  | some (sc, r) => some (String.mk sc, String.mk (hostOf r))
  | none => none

/-- An IP address at the granularity `rejectPrivateIP` inspects one:
an IPv4 dotted quad, or an IPv6 address abstracted to its loopback /
link-local classification. -/
inductive IPAddr where
  | v4 (a b c d : Nat)
  | v6 (loopback linkLocal : Bool)
deriving DecidableEq, Repr

/-- Model of `net.IP.IsLoopback`: 127.0.0.0/8 or IPv6 `::1`. -/
def IPAddr.isLoopback : IPAddr → Bool
  | .v4 a _ _ _ => a == 127
  | .v6 l _ => l

/-- Model of `net.IP.IsLinkLocalUnicast`: 169.254.0.0/16 or IPv6
fe80::/10 (abstracted to the `linkLocal` flag). -/
def IPAddr.isLinkLocalUnicast : IPAddr → Bool
  | .v4 a b _ _ => a == 169 && b == 254
  | .v6 _ ll => ll

/-- Model of `net.IP.IsLinkLocalMulticast`: 224.0.0.0/24 for IPv4. -/
def IPAddr.isLinkLocalMulticast : IPAddr → Bool
  | .v4 a b c _ => a == 224 && b == 0 && c == 0
  | .v6 _ _ => false

/-- Membership in 10.0.0.0/8 (part_004 private range list). -/
def priv10 : IPAddr → Bool
  | .v4 a _ _ _ => a == 10
  | .v6 _ _ => false

/-- Membership in 172.16.0.0/12. -/
def priv172 : IPAddr → Bool
  | .v4 a b _ _ => a == 172 && decide (16 ≤ b) && decide (b ≤ 31)
  | .v6 _ _ => false

/-- Membership in 192.168.0.0/16. -/
def priv192168 : IPAddr → Bool
  | .v4 a b _ _ => a == 192 && b == 168
  | .v6 _ _ => false

/-- Membership in 169.254.0.0/16 (listed again among the private ranges
in the source, after the link-local check). -/
def priv169254 : IPAddr → Bool
  | .v4 a b _ _ => a == 169 && b == 254
  | .v6 _ _ => false

/-- The disjunction of every class `rejectPrivateIP` rejects. -/
def badIP (ip : IPAddr) : Bool :=
  ip.isLoopback || ip.isLinkLocalUnicast || ip.isLinkLocalMulticast ||
    priv10 ip || priv172 ip || priv192168 ip || priv169254 ip

/-- SSRF address filter (part_004 `rejectPrivateIP`, lines 255-280), in
source order: loopback, link-local, then the RFC 1918 / link-local CIDR
list. -/
def rejectPrivateIP (ip : IPAddr) : Except String Unit :=
  if ip.isLoopback then .error "loopback address not allowed"
  else if ip.isLinkLocalUnicast || ip.isLinkLocalMulticast then
    .error "link-local address not allowed"
  else if priv10 ip then .error "private IP (10.x.x.x) not allowed"
  else if priv172 ip then .error "private IP (172.16-31.x.x) not allowed"
  else if priv192168 ip then .error "private IP (192.168.x.x) not allowed"
  else if priv169254 ip then .error "private IP (link-local) not allowed"
  else .ok ()

/-- Decimal value of a digit list. -/
def digitsToNat (l : List Char) : Nat :=
  l.foldl (fun n c => n * 10 + (c.toNat - 48)) 0

/-- No leading zero in a multi-digit dotted-quad part (Go's `ParseIP`
rejects leading zeros). -/
def noLeadZero : List Char → Bool
  | [] => false
  | [_] => true
  | c :: _ => decide (c ≠ '0')

/-- One dotted-quad part: 1-3 digits, value at most 255, no leading
zero. -/
def partOk (l : List Char) : Bool :=
  !l.isEmpty && decide (l.length ≤ 3) && l.all Char.isDigit && noLeadZero l &&
    decide (digitsToNat l ≤ 255)

/-- Parse a dotted-quad IPv4 literal. -/
def parseIPv4 (s : String) : Option IPAddr :=
  match splitOnChar '.' s.data with
  | [a, b, c, d] =>
      if partOk a && partOk b && partOk c && partOk d then
        some (.v4 (digitsToNat a) (digitsToNat b) (digitsToNat c) (digitsToNat d))
      else none
  | _ => none

/-- Model of `net.ParseIP` at the coverage the repository exercises:
dotted-quad IPv4 literals and the IPv6 loopback literal `::1`; any other
host string is treated as a DNS name (handed to the resolver). -/
def parseIP (s : String) : Option IPAddr :=
  if s.data.contains ':' then
    (if s = "::1" then some (.v6 true false) else none)
  else parseIPv4 s

/-- Check every resolved address, failing on the first private one
(part_004 lines 231-235). -/
def checkResolved : List IPAddr → Except String Unit
  | [] => .ok ()
  | ip :: ips =>
      match rejectPrivateIP ip with
      | .error e => .error e
      | .ok _ => checkResolved ips

/-- Webhook URL validation with SSRF protection (part_004
`ValidateWebhookURL`, lines 206-238). `resolve` is the ambient DNS
lookup; a lookup failure (`none`) is allowed through deliberately
("Can't resolve at config time — allow but it may fail at runtime"). -/
def ValidateWebhookURL (resolve : String → Option (List IPAddr))
    (rawURL : String) : Except String Unit :=
  match parseURL rawURL with
  | none => .error "malformed URL"
  | some (scheme, host) =>
      if scheme ≠ "http" ∧ scheme ≠ "https" then
        .error "scheme not allowed, must be http or https"
      else if host = "" then .error "empty host"
      else
        match parseIP host with
        | some ip => rejectPrivateIP ip
        | none =>
            match resolve host with
            | none => .ok ()
            | some ips => checkResolved ips

/-- Health URL validation (part_004 `ValidateHealthURL`, lines 241-253):
scheme must be http/https and the host non-empty; private IPs are
allowed. -/
def ValidateHealthURL (rawURL : String) : Except String Unit :=
  match parseURL rawURL with
  | none => .error "malformed URL"
  | some (scheme, host) =>
      if scheme ≠ "http" ∧ scheme ≠ "https" then
        .error "scheme not allowed, must be http or https"
      else if host = "" then .error "empty host"
      else .ok ()

theorem rejectPrivateIP_error_of_bad (ip : IPAddr) (h : badIP ip = true) :
    ∃ e, rejectPrivateIP ip = .error e := by
  simp only [rejectPrivateIP]
  split_ifs <;> first
    | exact ⟨_, rfl⟩
    | (simp only [badIP, Bool.or_eq_true] at h
       simp_all)

theorem rejectPrivateIP_ok_not_bad (ip : IPAddr)
    (h : rejectPrivateIP ip = .ok ()) : badIP ip = false := by
  simp only [rejectPrivateIP] at h
  split_ifs at h with h1 h2 h3 h4 h5 h6
  simp only [badIP, Bool.or_eq_true] at h2 ⊢
  simp_all

theorem checkResolved_error_of_mem (ips : List IPAddr) (ip : IPAddr)
    (hm : ip ∈ ips) (hb : badIP ip = true) :
    ∃ e, checkResolved ips = .error e := by
  induction ips with
  | nil => cases hm
  | cons h0 rest ih =>
      simp only [checkResolved]
      rcases hre : rejectPrivateIP h0 with e | u
      · exact ⟨e, rfl⟩
      · rcases List.mem_cons.mp hm with rfl | htail
        · cases u
          rw [rejectPrivateIP_ok_not_bad ip hre] at hb
          cases hb
        · exact ih htail

/-- C10: `ValidateWebhookURL` rejects every URL whose scheme is not http
or https, whose host is empty, or whose host is an IP literal — or a
name resolving to an address — that is loopback, link-local or RFC 1918
private; but when the host is a DNS name whose resolution fails it
returns `ok` (the URL passes SSRF validation unresolved). -/
theorem c10_webhook_url :
    ∀ (resolve : String → Option (List IPAddr)) (raw scheme host : String),
      parseURL raw = some (scheme, host) →
      ((scheme ≠ "http" ∧ scheme ≠ "https") →
        ∃ e, ValidateWebhookURL resolve raw = .error e)
    ∧ (host = "" → ∃ e, ValidateWebhookURL resolve raw = .error e)
    ∧ (∀ ip, parseIP host = some ip → badIP ip = true →
        ∃ e, ValidateWebhookURL resolve raw = .error e)
    ∧ (∀ ips ip, parseIP host = none → resolve host = some ips → ip ∈ ips →
        badIP ip = true → ∃ e, ValidateWebhookURL resolve raw = .error e)
    ∧ ((scheme = "http" ∨ scheme = "https") → host ≠ "" →
        parseIP host = none → resolve host = none →
        ValidateWebhookURL resolve raw = .ok ()) := by
  intro resolve raw scheme host hp
  have hv : ValidateWebhookURL resolve raw
      = (if scheme ≠ "http" ∧ scheme ≠ "https" then
          Except.error "scheme not allowed, must be http or https"
        else if host = "" then Except.error "empty host"
        else
          match parseIP host with
          | some ip => rejectPrivateIP ip
          | none =>
              match resolve host with
              | none => Except.ok ()
              | some ips => checkResolved ips) := by
    simp only [ValidateWebhookURL, hp]
  refine ⟨?_, ?_, ?_, ?_, ?_⟩
  · intro hs
    rw [hv, if_pos hs]
    exact ⟨_, rfl⟩
  · intro hh
    rw [hv]
    split_ifs <;> exact ⟨_, rfl⟩
  · intro ip hip hb
    rw [hv]
    split_ifs
    · exact ⟨_, rfl⟩
    · exact ⟨_, rfl⟩
    · rw [hip]
      exact rejectPrivateIP_error_of_bad ip hb
  · intro ips ip hnone hres hm hb
    rw [hv]
    split_ifs
    · exact ⟨_, rfl⟩
    · exact ⟨_, rfl⟩
    · rw [hnone, hres]
      exact checkResolved_error_of_mem ips ip hm hb
  · intro hs hh hnone hres
    have hne : ¬(scheme ≠ "http" ∧ scheme ≠ "https") := by
      rintro ⟨h1, h2⟩
      rcases hs with h | h
      · exact h1 h
      · exact h2 h
    rw [hv, if_neg hne, if_neg hh, hnone, hres]

/-- A resolver that fails every lookup (DNS unavailable at validation
time). -/
def noResolve : String → Option (List IPAddr) := fun _ => none

/-- Concrete witness for `c10_webhook_url`: an unresolvable host passes
SSRF validation. -/
theorem c10_webhook_url_witness :
    ValidateWebhookURL noResolve "http://unresolvable.example/hook"
      = .ok () :=
  (c10_webhook_url noResolve "http://unresolvable.example/hook"
      "http" "unresolvable.example" (by decide)).2.2.2.2
    (Or.inl rfl) (by decide) (by decide) rfl

/-!
Configuration validation, embedded from
`src/internal/config/validate.go`. The `Config`/`Agent` struct
definitions are not under src/; their fields are taken from what
`validate` reads (hostname, hostnames, backend, policy, container.name,
health.url, idle.timeout) plus, modelled from the spec (§4.5.1/§6), the
numeric on-demand options `maxFailures` and `maxRestartAttempts` that the
config loader supplies to `OnDemandConfig` — `validate` never reads
them. Go's map iteration is modelled as a list of name/agent pairs;
`url.Parse` of the backend is modelled as rejecting control characters
(the only inputs it errors on). -/

/-- Container sub-config (field read by validate: `Name`). -/
structure Container where
  name : String
deriving DecidableEq, Repr

/-- Health sub-config (field read by validate: `URL`). -/
structure Health where
  url : String
deriving DecidableEq, Repr

/-- Idle sub-config: `Timeout` and `WakeCooldown` durations (Go
`time.Duration`, an integer). -/
structure IdleConfig where
  timeout : Int
  wakeCooldown : Int
deriving DecidableEq, Repr

/-- One configured agent: the fields `validate` reads, plus the
spec-modelled numeric on-demand options. -/
structure Agent where
  hostname : String
  hostnames : List String
  backend : String
  policy : String
  container : Container
  health : Health
  idle : IdleConfig
  maxFailures : Int
  maxRestartAttempts : Int
deriving DecidableEq, Repr

/-- The whole configuration as validate traverses it. -/
structure Config where
  agents : List (String × Agent)
  webhooks : List WebhookConfig
deriving DecidableEq, Repr

/-- Model of `url.Parse` succeeding on the backend URL: Go's parser only
errors on ASCII control characters in the URL. -/
def urlParseOk (s : String) : Bool :=
  s.data.all (fun c => decide (32 ≤ c.toNat))

/-- Per-agent field checks of `validate` (validate.go lines 17-55):
hostname and backend present, backend parseable, policy known, and the
policy-specific requirements — for `on-demand` (lines 45-55): a
container name, a health URL and `idle.timeout > 0`. -/
def agentChecks (a : Agent) : Except String Unit :=
  if a.hostname = "" then .error "missing hostname"
  else if a.backend = "" then .error "missing backend"
  else if !urlParseOk a.backend then .error "invalid backend URL"
  else if a.policy = "always-on" ∨ a.policy = "unmanaged" ∨ a.policy = "on-demand" then
    (if a.policy = "always-on" ∧ a.container.name = "" then
      .error "always-on policy requires container.name"
    else if a.policy = "always-on" ∧ a.health.url = "" then
      .error "always-on policy requires health.url"
    else if a.policy = "on-demand" ∧ a.container.name = "" then
      .error "on-demand policy requires container.name"
    else if a.policy = "on-demand" ∧ a.health.url = "" then
      .error "on-demand policy requires health.url"
    else if a.policy = "on-demand" ∧ a.idle.timeout ≤ 0 then
      .error "on-demand policy requires idle.timeout > 0"
    else .ok ())
  else if a.policy = "" then .error "missing policy"
  else .error "unknown policy"

/-- Hostname loop of `validate` (lines 57-70): validate each non-empty
hostname (primary plus additional) and reject duplicates against the
accumulated `seen` set; returns the extended set. -/
def checkHostnames (seen : List String) : List String → Except String (List String)
  | [] => .ok seen
  | h :: t =>
      if h = "" then checkHostnames seen t
      else
        match ValidateHostname h with
        | .error e => .error e
        | .ok _ =>
            if seen.contains h then .error "duplicate hostname"
            else checkHostnames (h :: seen) t

/-- Health-URL check of `validate` (lines 72-77): only performed when a
health URL is set. -/
def healthURLCheck (a : Agent) : Except String Unit :=
  if a.health.url = "" then .ok () else ValidateHealthURL a.health.url

/-- The agent loop of `validate`, threading the seen-hostname set. -/
def validateAgents (seen : List String) : List (String × Agent) → Except String Unit
  | [] => .ok ()
  | (_, a) :: rest =>
      match agentChecks a with
      | .error e => .error e
      | .ok _ =>
          match checkHostnames seen (a.hostname :: a.hostnames) with
          | .error e => .error e
          | .ok seen2 =>
              match healthURLCheck a with
              | .error e => .error e
              | .ok _ => validateAgents seen2 rest

/-- Webhook loop of `validate` (lines 81-85). -/
def validateWebhooks (resolve : String → Option (List IPAddr)) :
    List WebhookConfig → Except String Unit
  | [] => .ok ()
  | wh :: rest =>
      match ValidateWebhookURL resolve wh.url with
      | .error e => .error e
      | .ok _ => validateWebhooks resolve rest

/-- Top-level config validation (validate.go `validate`). -/
def validate (resolve : String → Option (List IPAddr)) (cfg : Config) :
    Except String Unit :=
  if cfg.agents.isEmpty then .error "config: no agents defined"
  else
    match validateAgents [] cfg.agents with
    | .error e => .error e
    | .ok _ => validateWebhooks resolve cfg.webhooks

/-- True when an `Except` carries a success. -/
def exceptOk {ε α : Type} : Except ε α → Bool
  | .ok _ => true
  | .error _ => false

theorem agentChecks_on_demand (a : Agent) (h : agentChecks a = .ok ())
    (hp : a.policy = "on-demand") :
    a.container.name ≠ "" ∧ a.health.url ≠ "" ∧ 0 < a.idle.timeout := by
  simp only [agentChecks] at h
  split_ifs at h with h1 h2 h3 h4 h5 h6 h7 h8 h9 h10
  refine ⟨fun hc => h7 ⟨hp, hc⟩, fun hc => h8 ⟨hp, hc⟩, ?_⟩
  by_contra hc
  exact h9 ⟨hp, by omega⟩

theorem validateAgents_on_demand (l : List (String × Agent)) :
    ∀ seen, validateAgents seen l = .ok () →
    ∀ (name : String) (a : Agent), (name, a) ∈ l → a.policy = "on-demand" →
    a.container.name ≠ "" ∧ a.health.url ≠ "" ∧ 0 < a.idle.timeout := by
  induction l with
  | nil =>
      intro seen _ name a hm
      cases hm
  | cons p rest ih =>
      intro seen h name a hm hp
      obtain ⟨n0, a0⟩ := p
      simp only [validateAgents] at h
      rcases hac : agentChecks a0 with e | u
      · rw [hac] at h
        cases h
      · cases u
        rw [hac] at h
        rcases hch : checkHostnames seen (a0.hostname :: a0.hostnames) with e | seen2
        · rw [hch] at h
          cases h
        · rw [hch] at h
          rcases hhu : healthURLCheck a0 with e | u2
          · rw [hhu] at h
            cases h
          · cases u2
            rw [hhu] at h
            rcases List.mem_cons.mp hm with heq | htail
            · injection heq with hn ha
              subst ha
              exact agentChecks_on_demand _ hac hp
            · exact ih seen2 h name a htail hp

/-- C7 (amended): `validate` accepts a configuration only if every agent
with policy `on-demand` has a non-empty container name, a non-empty
health URL and a positive idle timeout. (It does not check `MaxFailures`
or non-negativity of the other numeric fields — see
`c7_counterexample`.) -/
theorem c7_on_demand_validation :
    ∀ (resolve : String → Option (List IPAddr)) (cfg : Config),
      validate resolve cfg = .ok () →
      ∀ (name : String) (a : Agent), (name, a) ∈ cfg.agents →
        a.policy = "on-demand" →
        a.container.name ≠ "" ∧ a.health.url ≠ "" ∧ 0 < a.idle.timeout := by
  intro resolve cfg h name a hm hp
  simp only [validate] at h
  split_ifs at h
  rcases hva : validateAgents [] cfg.agents with e | u
  · simp only [hva] at h
    exact absurd h (by simp)
  · cases u
    exact validateAgents_on_demand cfg.agents [] hva name a hm hp

/-- The agent of `c7_counterexample`: a fully formed on-demand agent
whose `MaxFailures` is 0, violating the claimed `MaxFailures ≥ 1`
constraint. -/
def agentMF0 : Agent :=
  { hostname := "a.com", hostnames := [], backend := "http://x",
    policy := "on-demand", container := ⟨"svc"⟩, health := ⟨"http://x/h"⟩,
    idle := ⟨60, 0⟩, maxFailures := 0, maxRestartAttempts := 0 }

def cfgMF0 : Config := { agents := [("a", agentMF0)], webhooks := [] }

/-- C7 counterexample: `validate` accepts a configuration whose
on-demand agent has `MaxFailures = 0`; the claimed `MaxFailures ≥ 1`
(and numeric non-negativity) constraints are not enforced by validation. -/
theorem c7_counterexample :
    exceptOk (validate noResolve cfgMF0) = true ∧
    ("a", agentMF0) ∈ cfgMF0.agents ∧
    agentMF0.policy = "on-demand" ∧
    agentMF0.maxFailures = 0 := by
  refine ⟨?_, ?_, rfl, rfl⟩
  · decide
  · simp [cfgMF0]

/-- Concrete witness for `c7_on_demand_validation`: the accepted
counterexample configuration indeed satisfies the amended constraints. -/
theorem c7_on_demand_validation_witness :
    agentMF0.container.name ≠ "" ∧ agentMF0.health.url ≠ "" ∧
      0 < agentMF0.idle.timeout :=
  c7_on_demand_validation noResolve cfgMF0 rfl "a" agentMF0
    (by simp [cfgMF0]) rfl

end Warren
